import Mathlib

/-
  Verification of the AAPB-PUA Kaldi wrapper's core post-processing logic
  (app.py): timeline translation to the "patchwork" audio, segment lookup,
  token reattribution, the un-segmented fallback path, and the batch-level
  patchwork/formatting pipeline.

  Times are modelled as exact rationals; Python's int() truncation toward
  zero is modelled by pyInt.  Python exceptions are modelled with Except.
  The Batteries rational operations are restored to their default
  reducibility locally so that concrete runs can be evaluated by kernel
  reduction.
-/

namespace PuaKaldi

attribute [local semireducible] Rat.add Rat.sub Rat.mul Rat.inv Rat.ofScientific

/-- A speech TimeFrame as consumed by align_segmentations_to_patchwork:
the (ann.id, ann.properties start, end) triple built at app.py:182. -/
structure SegAnn where
  sid : Nat
  astart : ℚ
  aend : ℚ
deriving DecidableEq

/-- One row of the patchwork layout: the transpose of the five parallel
sequences (segment_ids, ori_starts, ori_ends, new_starts, new_ends)
returned by align_segmentations_to_patchwork (app.py:196). -/
structure PatchSeg where
  sid : Nat
  ostart : ℚ
  oend : ℚ
  nstart : ℚ
  nend : ℚ
deriving DecidableEq

/-- Class attribute silence_gap = 1.0 (seconds), app.py:20. -/
def silence_gap : ℚ := 1

/-- timeunit_conv[timeunit] for the fixed timeunit 'milliseconds', app.py:18/21. -/
def timeunit_conv : ℚ := 1000

/-- Class attribute token_boundary = ' ', app.py:19. -/
def token_boundary : String := " "

/-- Stable insertion of a segment into a list sorted by astart:
an element is placed before all later elements with an equal key. -/
def insert_seg (x : SegAnn) : List SegAnn → List SegAnn
  | [] => [x]
  | y :: ys => if y.astart < x.astart then y :: insert_seg x ys else x :: y :: ys

/-- Stable sort by astart, modelling Python's sorted(key=lambda x: x[1])
at app.py:185.  Both are stable sorts on the same key, hence produce the
same list. -/
def sort_segs : List SegAnn → List SegAnn
  | [] => []
  | x :: xs => insert_seg x (sort_segs xs)

/-- The loop at app.py:190-195: new_starts[0] = 0,
new_starts[i] = new_ends[i-1] + silence_gap * timeunit_conv,
new_ends[i] = ori_ends[i] - ori_starts[i] + new_starts[i]. -/
def layout_from (start : ℚ) : List SegAnn → List PatchSeg
  | [] => []
  | s :: rest =>
    ⟨s.sid, s.astart, s.aend, start, s.aend - s.astart + start⟩ ::
      layout_from (s.aend - s.astart + start + silence_gap * timeunit_conv) rest

/-- Models _align_segmentations_to_patchwork (app.py:181-196).  On an empty
segment list the unpacking `segment_ids, ori_starts, ori_ends =
zip(*sorted_segments)` raises ValueError (zip of nothing yields no
tuples), modelled as none. -/
def align_segmentations_to_patchwork (anns : List SegAnn) : Option (List PatchSeg) :=
  match sort_segs anns with
  | [] => none
  | s :: rest => some (layout_from 0 (s :: rest))

/-- Python exceptions that the modelled code can raise. -/
inductive PyErr
  | valueError
  | keyError
  | indexError
deriving DecidableEq

/-- One entry of the PUA transcript's words array:
{ time, word, duration } (app.py:100-108); duration arrives as a string
and is parsed with float(), so both times are plain numbers here. -/
structure Word where
  word : String
  time : ℚ
  duration : ℚ
deriving DecidableEq

/-- Python int() applied to a number: truncation toward zero. -/
def pyInt (q : ℚ) : ℤ := q.num.tdiv q.den

/-- Python list indexing a[i]: negative indices count from the end,
out-of-range indexing raises (modelled as none). -/
def pyGet {α : Type} (l : List α) (i : ℤ) : Option α :=
  if 0 ≤ i then l.get? i.toNat
  else if (-i).toNat ≤ l.length then l.get? (l.length - (-i).toNat) else none

/-- bisect.bisect (= bisect_right) inner loop: while lo < hi, probe
mid = (lo+hi)/2 and narrow the interval.  Each iteration strictly
shrinks hi - lo, so fuel = length + 1 always suffices. -/
def bisect_right_aux (a : List ℚ) (x : ℚ) : ℕ → ℕ → ℕ → ℕ
  | 0, lo, _ => lo
  | fuel + 1, lo, hi =>
    if lo < hi then
      let mid := (lo + hi) / 2
      if x < a.getD mid 0 then bisect_right_aux a x fuel lo mid
      else bisect_right_aux a x fuel (mid + 1) hi
    else lo

/-- bisect.bisect(a, x) as used at app.py:148. -/
def bisect_right (a : List ℚ) (x : ℚ) : ℕ :=
  bisect_right_aux a x (a.length + 1) 0 a.length

/-- word_obj start time in the patchwork stream, app.py:139. -/
def startPw (w : Word) : ℚ := w.time * timeunit_conv

/-- word_obj end time in the patchwork stream, app.py:140. -/
def endPw (w : Word) : ℚ := w.duration * timeunit_conv + startPw w

/-- segment_num = bisect.bisect(patchwork_starts, start_in_patchwork) - 1
(app.py:148), an integer that can be -1. -/
def segNumOf (layout : List PatchSeg) (w : Word) : ℤ :=
  (bisect_right (layout.map (·.nstart)) (startPw w) : ℤ) - 1

/-- Emitted alignment annotations: audio-document-to-TextDocument (single
path), speech-segment-to-TextDocument, and TimeFrame-to-token.  Emitted
records are referenced by their creation index (TextDocuments, tokens and
TimeFrames are each counted separately, in creation order). -/
inductive Align
  | audioTd (td : ℕ)
  | segTd (seg : ℕ) (td : ℕ)
  | tfTok (tf : ℕ) (tok : ℕ)
deriving DecidableEq

/-- A Token annotation (Uri.TOKEN) with its word, char offsets and the
index of the TextDocument its document property points at. -/
structure TokenAnn where
  word : String
  charStart : ℕ
  charEnd : ℕ
  doc : ℕ
deriving DecidableEq

/-- The running state of _kaldi_to_segmented_textdocument: the mutable
locals (cur_segment, raw_text, position) plus the annotations created in
the view so far (TextDocument texts, tokens, TimeFrames as (start, end),
alignments).  The text of the most recently created TextDocument is the
last element of docs. -/
structure KState where
  curSegment : ℕ
  rawText : String
  position : ℕ
  docs : List String
  toks : List TokenAnn
  tfs : List (ℤ × ℤ)
  aligns : List Align
deriving DecidableEq

/-- Decidable equality for modelled outcomes, so that concrete runs can
be checked by decide. -/
instance {ε α : Type} [DecidableEq ε] [DecidableEq α] : DecidableEq (Except ε α) :=
  fun a b =>
    match a, b with
    | .error x, .error y =>
      if h : x = y then .isTrue (by rw [h]) else .isFalse (by intro c; cases c; exact h rfl)
    | .ok x, .ok y =>
      if h : x = y then .isTrue (by rw [h]) else .isFalse (by intro c; cases c; exact h rfl)
    | .error _, .ok _ => .isFalse (by intro c; cases c)
    | .ok _, .error _ => .isFalse (by intro c; cases c)

/-- State right before the token loop (app.py:130-134): cur_segment = 0,
raw_text = "", one empty TextDocument created, position = 0. -/
def initKState : KState := ⟨0, "", 0, [""], [], [], []⟩

/-- One iteration of the token loop of _kaldi_to_segmented_textdocument
(app.py:135-179), faithful to the statement order: char offsets and
position are advanced first (142-145), then the segment lookup and the
gap/straddle rejection (147-154), then the transition to the next
segment when segment_num - 1 == cur_segment (156-166), then the token,
TimeFrame and alignment creation and the raw_text append (168-179). -/
def stepTok (layout : List PatchSeg) (st : KState) (w : Word) : Except PyErr KState :=
  let charStart := st.position
  let charEnd := charStart + w.word.length
  let position1 := st.position + w.word.length + token_boundary.length
  match pyGet layout (segNumOf layout w) with
  | none => .error .indexError
  | some seg =>
    if startPw w < seg.nend ∧ endPw w < seg.nend then
      match (if segNumOf layout w - 1 = (st.curSegment : ℤ) then
              match layout.get? st.curSegment with
              | none => Except.error PyErr.indexError
              | some cseg =>
                Except.ok { st with
                  docs := (st.docs.set (st.docs.length - 1) st.rawText) ++ [""],
                  aligns := st.aligns ++ [Align.segTd cseg.sid (st.docs.length - 1)],
                  position := 0,
                  curSegment := st.curSegment + 1,
                  rawText := "" }
            else Except.ok { st with position := position1 }) with
      | .error e => .error e
      | .ok st1 =>
        .ok { st1 with
          toks := st1.toks ++ [⟨w.word, charStart, charEnd, st1.docs.length - 1⟩],
          tfs := st1.tfs ++
            [(pyInt (startPw w + (seg.ostart - seg.nstart)),
              pyInt (endPw w + (seg.ostart - seg.nstart)))],
          aligns := st1.aligns ++ [Align.tfTok st1.tfs.length st1.toks.length],
          rawText := if st1.rawText.length = 0 then w.word
                     else st1.rawText ++ token_boundary ++ w.word }
    else
      .ok { st with position := position1 }

/-- The token loop, aborting on the first (modelled) exception. -/
def runWalk (layout : List PatchSeg) : KState → List Word → Except PyErr KState
  | st, [] => .ok st
  | st, w :: ws =>
    match stepTok layout st w with
    | .error e => .error e
    | .ok st' => runWalk layout st' ws

/-- Models _kaldi_to_segmented_textdocument (app.py:126-179): build the
patchwork layout from the speech TimeFrames of the segmentation view,
then walk the transcript tokens. -/
def kaldi_to_segmented_textdocument (anns : List SegAnn) (words : List Word) :
    Except PyErr KState :=
  match align_segmentations_to_patchwork anns with
  | none => .error .valueError
  | some layout => runWalk layout initKState words

/-- Number of segment-to-TextDocument alignment links among the emitted
alignments. -/
def count_segtd (aligns : List Align) : ℕ :=
  (aligns.filter (fun a => match a with | .segTd _ _ => true | _ => false)).length

/-- The output of the fallback path: one TextDocument text, the token
annotations, the TimeFrames and the alignments of the view. -/
structure SingleOut where
  text : String
  toks : List TokenAnn
  tfs : List (ℤ × ℤ)
  aligns : List Align
deriving DecidableEq

/-- The per-token loop of _kaldi_to_single_textdocument (app.py:115-124):
char_offset and the running annotation index are threaded through. -/
def single_loop : List Word → ℕ → ℕ → List TokenAnn × List (ℤ × ℤ) × List Align
  | [], _, _ => ([], [], [])
  | w :: ws, charOffset, idx =>
    let tfStart := pyInt (w.time * timeunit_conv)
    let tfEnd := pyInt (w.duration * timeunit_conv) + tfStart
    let rest := single_loop ws (charOffset + w.word.length + token_boundary.length) (idx + 1)
    (⟨w.word, charOffset, charOffset + w.word.length, 0⟩ :: rest.1,
     (tfStart, tfEnd) :: rest.2.1,
     Align.tfTok idx idx :: rest.2.2)

/-- Models _kaldi_to_single_textdocument (app.py:98-124): join all words with
the token boundary into one TextDocument, align it to the audio
document, then emit one token, one TimeFrame and one alignment per
transcript word. -/
def kaldi_to_single_textdocument (words : List Word) : SingleOut :=
  ⟨String.intercalate token_boundary (words.map (fun w => w.word)),
   (single_loop words 0 0).1,
   (single_loop words 0 0).2.1,
   Align.audioTd 0 :: (single_loop words 0 0).2.2⟩

/-- The timeUnit recorded in the contains metadata of a TimeFrame view;
the model restricts it to the units the wrapper's timeunit_conv table
knows (app.py:21), under which the conversion lookup at app.py:245-249
is total. -/
inductive TimeUnit
  | milliseconds
  | seconds
deriving DecidableEq

/-- timeunit_conv[timeUnit], app.py:21. -/
def timeunit_conv_of : TimeUnit → ℚ
  | .milliseconds => 1000
  | .seconds => 1

/-- A TimeFrame annotation inside a segmentation view. -/
structure Frame where
  fid : Nat
  frameType : String
  fstart : ℤ
  fend : ℤ
deriving DecidableEq

/-- A view whose contains metadata lists TimeFrame. -/
structure SegView where
  timeUnit : TimeUnit
  frames : List Frame
deriving DecidableEq

/-- An AudioDocument with a location, together with the TimeFrame-bearing
views that mmif.get_views_for_document returns for it (app.py:237-238). -/
structure AudioDoc where
  did : Nat
  location : String
  tfViews : List SegView
deriving DecidableEq

/-- view.get_annotations(TimeFrame, frameType='speech'). -/
def speech_frames (v : SegView) : List Frame :=
  v.frames.filter (fun f => f.frameType == "speech")

/-- Name of the patchwork wav written for an audio document
(app.py:251); the temporary directory prefix is abstracted away. -/
def patchwork_name (i : Nat) : String := toString i ++ ".wav"

/-- Models _patchwork_audiofiles (app.py:228-257): for each audio document,
more than one TimeFrame view raises ValueError; exactly one produces a
patchwork file entry plus a tf_src_view entry; none keeps the original
location.  The ffmpeg splicing itself is an external effect and is not
modelled. -/
def patchwork_audiofiles : List AudioDoc → Except PyErr (List (Nat × String) × List (Nat × SegView))
  | [] => .ok ([], [])
  | d :: ds =>
    match d.tfViews with
    | [] =>
      match patchwork_audiofiles ds with
      | .error e => .error e
      | .ok (files, tfs) => .ok ((d.did, d.location) :: files, tfs)
    | [v] =>
      match patchwork_audiofiles ds with
      | .error e => .error e
      | .ok (files, tfs) => .ok ((d.did, patchwork_name d.did) :: files, (d.did, v) :: tfs)
    | _ => .error .valueError

/-- The (ann.id, start, end) triples handed from a segmentation view to
align_segmentations_to_patchwork (app.py:128/182); property values are
used as stored, with no unit conversion. -/
def segview_to_anns (v : SegView) : List SegAnn :=
  (speech_frames v).map (fun f => ⟨f.fid, (f.fstart : ℚ), (f.fend : ℚ)⟩)

/-- One output view per transcript: either the fallback single
TextDocument formatting or the segmented formatting. -/
inductive ViewOut
  | single (o : SingleOut)
  | segmented (st : KState)
deriving DecidableEq

/-- segmentataion_indices[audiodoc_id] (app.py:96): a Python dict lookup,
KeyError when absent (modelled as none). -/
def lookup_tf_view (tfSrc : List (Nat × SegView)) (i : Nat) : Option SegView :=
  match tfSrc.find? (fun p => p.1 == i) with
  | some p => some p.2
  | none => none

/-- Models _kaldi_to_mmif (app.py:79-96): one transcript per audio document id;
the branch between the fallback and the segmented path tests whether the
whole tf_src_view map is empty, not the individual document. -/
def kaldi_to_mmif (trans : Nat → List Word) (tfSrc : List (Nat × SegView)) :
    List Nat → Except PyErr (List ViewOut)
  | [] => .ok []
  | i :: is =>
    if tfSrc.isEmpty then
      match kaldi_to_mmif trans tfSrc is with
      | .error e => .error e
      | .ok vs => .ok (.single (kaldi_to_single_textdocument (trans i)) :: vs)
    else
      match lookup_tf_view tfSrc i with
      | none => .error .keyError
      | some v =>
        match kaldi_to_segmented_textdocument (segview_to_anns v) (trans i) with
        | .error e => .error e
        | .ok st =>
          match kaldi_to_mmif trans tfSrc is with
          | .error e => .error e
          | .ok vs => .ok (.segmented st :: vs)

/-- Models _annotate (app.py:48-77) for a batch of audio documents, with the
external recognizer abstracted as a transcript per document id: with
use_speech_segmentation the patchwork map is built first, otherwise the
original locations are used and tf_src_view is empty. -/
def annotate_pipeline (useSeg : Bool) (docs : List AudioDoc) (trans : Nat → List Word) :
    Except PyErr (List ViewOut) :=
  if useSeg then
    match patchwork_audiofiles docs with
    | .error e => .error e
    | .ok (files, tfSrc) => kaldi_to_mmif trans tfSrc (files.map (fun p => p.1))
  else
    kaldi_to_mmif trans [] (docs.map (fun d => d.did))

/-- The two speech segments of the repository's own test scenario
(test_app.py:84-91): [0s,10s] and [20s,29s] in milliseconds. -/
def testAnns : List SegAnn := [⟨0, 0, 10000⟩, ⟨1, 20000, 29000⟩]

/-- The ten test tokens (test_app.py:20-24): words '1'..'0' at times
0,2,...,18 seconds, each with duration 1 second. -/
def testWords : List Word :=
  [⟨"1", 0, 1⟩, ⟨"2", 2, 1⟩, ⟨"3", 4, 1⟩, ⟨"4", 6, 1⟩, ⟨"5", 8, 1⟩,
   ⟨"6", 10, 1⟩, ⟨"7", 12, 1⟩, ⟨"8", 14, 1⟩, ⟨"9", 16, 1⟩, ⟨"0", 18, 1⟩]

/-- The patchwork layout of the test scenario. -/
def testLayout : List PatchSeg :=
  [⟨0, 0, 10000, 0, 10000⟩, ⟨1, 20000, 29000, 11000, 20000⟩]

/-- Three speech segments whose middle segment receives no token. -/
def c1Anns : List SegAnn := [⟨0, 0, 10000⟩, ⟨1, 20000, 28000⟩, ⟨2, 40000, 49000⟩]

/-- Two tokens: one in the first segment, one in the third (patchwork
times 1s and 21s), skipping the middle segment entirely. -/
def c1Words : List Word := [⟨"a", 1, 1⟩, ⟨"b", 21, 1⟩]

/-- The walk state right after the five accepted tokens of the first
test segment: raw_text = '1 2 3 4 5', position = 10. -/
def c3State : KState := ⟨0, "1 2 3 4 5", 10, [""], [], [], []⟩

/-- The rejected test token '6' (patchwork span 10s-11s). -/
def tok6 : Word := ⟨"6", 10, 1⟩

/-- A token inside the silence gap of the test layout (10.5s-11.5s). -/
def gapTok : Word := ⟨"x", 10.5, 1⟩

/-- A state in mid-walk used to witness the segment-transition step. -/
def c1WitState : KState := ⟨0, "ab", 4, [""], [], [], []⟩

/-- An accepted token located in the second test segment. -/
def tok7 : Word := ⟨"7", 12, 1⟩

/-- A two-token transcript, one token per test segment. -/
def c2Words : List Word := [⟨"a", 1, 1⟩, ⟨"b", 12, 1⟩]

/-- A word with fractional times: 1/512 s is exactly representable both
here and as an IEEE double, so Python computes the same values. -/
def c9Word : Word := ⟨"a", 1/512, 1/512⟩

/-- A batch of two audio documents: document 0 carries one segmentation
view with one speech frame, document 1 carries none. -/
def c10Docs : List AudioDoc :=
  [⟨0, "a.wav", [⟨TimeUnit.milliseconds, [⟨0, "speech", 0, 10000⟩]⟩]⟩,
   ⟨1, "b.wav", []⟩]

/-- Empty transcripts for the c10 batch. -/
def c10Trans : Nat → List Word := fun _ => []

lemma insert_seg_ne_nil (x : SegAnn) (l : List SegAnn) : insert_seg x l ≠ [] := by
  cases l with
  | nil => simp [insert_seg]
  | cons y ys =>
    simp only [insert_seg]
    split <;> simp

lemma sort_segs_eq_nil_iff (l : List SegAnn) : sort_segs l = [] ↔ l = [] := by
  cases l with
  | nil => simp [sort_segs]
  | cons x xs => simp [sort_segs, insert_seg_ne_nil]

lemma align_isSome_of_ne_nil (anns : List SegAnn) (h : anns ≠ []) :
    (align_segmentations_to_patchwork anns).isSome = true := by
  unfold align_segmentations_to_patchwork
  cases hs : sort_segs anns with
  | nil => exact absurd ((sort_segs_eq_nil_iff anns).mp hs) h
  | cons s rest => rfl

lemma align_some_ne_nil (anns : List SegAnn) (layout : List PatchSeg)
    (h : align_segmentations_to_patchwork anns = some layout) : layout ≠ [] := by
  unfold align_segmentations_to_patchwork at h
  cases hs : sort_segs anns with
  | nil => rw [hs] at h; cases h
  | cons s rest =>
    rw [hs] at h
    cases h
    simp [layout_from]

lemma layout_from_get_zero (start : ℚ) :
    ∀ (ss : List SegAnn) (p : PatchSeg), (layout_from start ss).get? 0 = some p →
      p.nstart = start := by
  intro ss p hp
  cases ss with
  | nil => simp [layout_from] at hp
  | cons s rest =>
    simp only [layout_from, List.get?] at hp
    cases hp
    rfl

lemma layout_from_duration :
    ∀ (ss : List SegAnn) (start : ℚ) (i : ℕ) (p : PatchSeg),
      (layout_from start ss).get? i = some p →
      p.nend - p.nstart = p.oend - p.ostart := by
  intro ss
  induction ss with
  | nil => intro start i p hp; simp [layout_from] at hp
  | cons s rest ih =>
    intro start i p hp
    cases i with
    | zero =>
      simp only [layout_from, List.get?] at hp
      cases hp
      simp
    | succ j =>
      simp only [layout_from, List.get?] at hp
      exact ih _ j p hp

lemma layout_from_gap :
    ∀ (ss : List SegAnn) (start : ℚ) (i : ℕ) (p q : PatchSeg),
      (layout_from start ss).get? i = some p →
      (layout_from start ss).get? (i + 1) = some q →
      q.nstart - p.nend = silence_gap * timeunit_conv := by
  intro ss
  induction ss with
  | nil => intro start i p q hp _; simp [layout_from] at hp
  | cons s rest ih =>
    intro start i p q hp hq
    cases i with
    | zero =>
      simp only [layout_from, List.get?] at hp hq
      cases hp
      have := layout_from_get_zero _ rest q hq
      simp [this]
    | succ j =>
      simp only [layout_from, List.get?] at hp hq
      exact ih _ j p q hp hq

lemma bisect_right_aux_bounds (a : List ℚ) (x : ℚ) :
    ∀ (fuel lo hi : ℕ), lo ≤ hi →
      lo ≤ bisect_right_aux a x fuel lo hi ∧ bisect_right_aux a x fuel lo hi ≤ hi := by
  intro fuel
  induction fuel with
  | zero => intro lo hi h; simp [bisect_right_aux]; omega
  | succ n ih =>
    intro lo hi h
    simp only [bisect_right_aux]
    split
    · split
      · have := ih lo ((lo + hi) / 2) (by omega)
        omega
      · have := ih ((lo + hi) / 2 + 1) hi (by omega)
        omega
    · omega

lemma bisect_right_le_length (a : List ℚ) (x : ℚ) : bisect_right a x ≤ a.length := by
  have := bisect_right_aux_bounds a x (a.length + 1) 0 a.length (by omega)
  exact this.2

lemma segNumOf_bounds (layout : List PatchSeg) (w : Word) :
    -1 ≤ segNumOf layout w ∧ segNumOf layout w ≤ (layout.length : ℤ) - 1 := by
  unfold segNumOf
  have h := bisect_right_le_length (layout.map (·.nstart)) (startPw w)
  simp only [List.length_map] at h
  omega

lemma pyGet_isSome (α : Type) (l : List α) (i : ℤ) (hl : l ≠ [])
    (h1 : -1 ≤ i) (h2 : i ≤ (l.length : ℤ) - 1) : ∃ a, pyGet l i = some a := by
  have hlen : 1 ≤ l.length := by
    cases l with
    | nil => exact absurd rfl hl
    | cons x xs => simp
  unfold pyGet
  by_cases h0 : 0 ≤ i
  · rw [if_pos h0]
    have hlt : i.toNat < l.length := by omega
    cases hg : l.get? i.toNat with
    | none => rw [List.get?_eq_none] at hg; omega
    | some a => exact ⟨a, rfl⟩
  · rw [if_neg h0]
    have hi : i = -1 := by omega
    subst hi
    have hcond : ((-(-1 : ℤ)).toNat ≤ l.length) := by norm_num; omega
    rw [if_pos hcond]
    have hidx : l.length - ((-(-1 : ℤ)).toNat) = l.length - 1 := by norm_num
    rw [hidx]
    cases hg : l.get? (l.length - 1) with
    | none => rw [List.get?_eq_none] at hg; omega
    | some a => exact ⟨a, rfl⟩

lemma pyGet_segNum_isSome (layout : List PatchSeg) (w : Word) (hl : layout ≠ []) :
    ∃ p, pyGet layout (segNumOf layout w) = some p := by
  have hb := segNumOf_bounds layout w
  exact pyGet_isSome PatchSeg layout (segNumOf layout w) hl hb.1 hb.2

lemma pyGet_toNat_lt (α : Type) (l : List α) (i : ℤ) (a : α)
    (h0 : 0 ≤ i) (h : pyGet l i = some a) : i.toNat < l.length := by
  unfold pyGet at h
  rw [if_pos h0] at h
  cases hg : l.get? i.toNat with
  | none => rw [hg] at h; cases h
  | some b =>
    by_contra hc
    rw [List.get?_eq_none.mpr (by omega)] at hg
    cases hg

lemma stepTok_rejected (layout : List PatchSeg) (st : KState) (w : Word) (seg : PatchSeg)
    (hp : pyGet layout (segNumOf layout w) = some seg)
    (hrej : ¬(startPw w < seg.nend ∧ endPw w < seg.nend)) :
    stepTok layout st w =
      .ok { st with position := st.position + w.word.length + token_boundary.length } := by
  simp only [stepTok, hp]
  rw [if_neg hrej]

lemma stepTok_accepted_no_trans (layout : List PatchSeg) (st : KState) (w : Word)
    (seg : PatchSeg)
    (hp : pyGet layout (segNumOf layout w) = some seg)
    (hacc : startPw w < seg.nend ∧ endPw w < seg.nend)
    (hcond : segNumOf layout w - 1 ≠ (st.curSegment : ℤ)) :
    stepTok layout st w = .ok
      ⟨st.curSegment,
       (if st.rawText.length = 0 then w.word else st.rawText ++ token_boundary ++ w.word),
       st.position + w.word.length + token_boundary.length,
       st.docs,
       st.toks ++ [⟨w.word, st.position, st.position + w.word.length, st.docs.length - 1⟩],
       st.tfs ++ [(pyInt (startPw w + (seg.ostart - seg.nstart)),
                   pyInt (endPw w + (seg.ostart - seg.nstart)))],
       st.aligns ++ [Align.tfTok st.tfs.length st.toks.length]⟩ := by
  simp only [stepTok, hp]
  rw [if_pos hacc, if_neg hcond]

lemma stepTok_accepted_trans (layout : List PatchSeg) (st : KState) (w : Word)
    (seg cseg : PatchSeg)
    (hp : pyGet layout (segNumOf layout w) = some seg)
    (hacc : startPw w < seg.nend ∧ endPw w < seg.nend)
    (hcond : segNumOf layout w - 1 = (st.curSegment : ℤ))
    (hcur : layout.get? st.curSegment = some cseg) :
    stepTok layout st w = .ok
      ⟨st.curSegment + 1,
       w.word,
       0,
       (st.docs.set (st.docs.length - 1) st.rawText) ++ [""],
       st.toks ++ [⟨w.word, st.position, st.position + w.word.length, st.docs.length⟩],
       st.tfs ++ [(pyInt (startPw w + (seg.ostart - seg.nstart)),
                   pyInt (endPw w + (seg.ostart - seg.nstart)))],
       st.aligns ++ [Align.segTd cseg.sid (st.docs.length - 1),
                     Align.tfTok st.tfs.length st.toks.length]⟩ := by
  simp only [stepTok, hp]
  rw [if_pos hacc, if_pos hcond, hcur]
  simp [List.length_set, List.append_assoc]

lemma stepTok_ok (layout : List PatchSeg) (st : KState) (w : Word) (hl : layout ≠ []) :
    ∃ st', stepTok layout st w = .ok st' := by
  obtain ⟨seg, hp⟩ := pyGet_segNum_isSome layout w hl
  by_cases hacc : startPw w < seg.nend ∧ endPw w < seg.nend
  · by_cases hcond : segNumOf layout w - 1 = (st.curSegment : ℤ)
    · have h0 : 0 ≤ segNumOf layout w := by omega
      have hlt := pyGet_toNat_lt PatchSeg layout _ seg h0 hp
      have hcl : st.curSegment < layout.length := by omega
      obtain ⟨cseg, hcur⟩ : ∃ c, layout.get? st.curSegment = some c := by
        cases hg : layout.get? st.curSegment with
        | none => rw [List.get?_eq_none] at hg; omega
        | some c => exact ⟨c, rfl⟩
      exact ⟨_, stepTok_accepted_trans layout st w seg cseg hp hacc hcond hcur⟩
    · exact ⟨_, stepTok_accepted_no_trans layout st w seg hp hacc hcond⟩
  · exact ⟨_, stepTok_rejected layout st w seg hp hacc⟩

lemma runWalk_ok (layout : List PatchSeg) (hl : layout ≠ []) :
    ∀ (ws : List Word) (st : KState), ∃ st', runWalk layout st ws = .ok st' := by
  intro ws
  induction ws with
  | nil => intro st; exact ⟨st, rfl⟩
  | cons w rest ih =>
    intro st
    obtain ⟨st1, h1⟩ := stepTok_ok layout st w hl
    obtain ⟨st2, h2⟩ := ih st1
    exact ⟨st2, by simp only [runWalk, h1, h2]⟩

lemma kaldi_seg_ok (anns : List SegAnn) (words : List Word) (h : anns ≠ []) :
    ∃ st, kaldi_to_segmented_textdocument anns words = .ok st := by
  unfold kaldi_to_segmented_textdocument
  cases ha : align_segmentations_to_patchwork anns with
  | none =>
    have := align_isSome_of_ne_nil anns h
    rw [ha] at this
    cases this
  | some layout =>
    exact runWalk_ok layout (align_some_ne_nil anns layout ha) words initKState

lemma count_segtd_append (l1 l2 : List Align) :
    count_segtd (l1 ++ l2) = count_segtd l1 + count_segtd l2 := by
  simp [count_segtd, List.filter_append]

lemma step_preserves_inv (layout : List PatchSeg) (st st' : KState) (w : Word)
    (hstep : stepTok layout st w = .ok st')
    (h1 : st.docs.getLast? = some "")
    (h2 : count_segtd st.aligns + 1 = st.docs.length)
    (h3 : ∀ s j, Align.segTd s j ∈ st.aligns → j + 1 < st.docs.length) :
    st'.docs.getLast? = some "" ∧
    count_segtd st'.aligns + 1 = st'.docs.length ∧
    ∀ s j, Align.segTd s j ∈ st'.aligns → j + 1 < st'.docs.length := by
  have hne : st.docs ≠ [] := by
    intro hd
    rw [hd] at h1
    cases h1
  have hlen1 : 1 ≤ st.docs.length := by
    cases hd : st.docs with
    | nil => exact absurd hd hne
    | cons a l => simp [hd]
  cases hp : pyGet layout (segNumOf layout w) with
  | none => simp [stepTok, hp] at hstep
  | some seg =>
    by_cases hacc : startPw w < seg.nend ∧ endPw w < seg.nend
    · by_cases hcond : segNumOf layout w - 1 = (st.curSegment : ℤ)
      · cases hcur : layout.get? st.curSegment with
        | none =>
          rw [stepTok, hp] at hstep
          simp only [if_pos hacc, if_pos hcond, hcur] at hstep
          cases hstep
        | some cseg =>
          rw [stepTok_accepted_trans layout st w seg cseg hp hacc hcond hcur] at hstep
          cases hstep
          refine ⟨by simp, ?_, ?_⟩
          · rw [count_segtd_append]
            simp only [List.length_append, List.length_set, List.length_cons,
              List.length_nil]
            have hc : count_segtd
                [Align.segTd cseg.sid (st.docs.length - 1),
                 Align.tfTok st.tfs.length st.toks.length] = 1 := rfl
            rw [hc]
            omega
          · intro s j hj
            simp only [List.length_append, List.length_set, List.length_cons,
              List.length_nil]
            rcases List.mem_append.mp hj with hold | hnew
            · have := h3 s j hold
              omega
            · rcases List.mem_cons.mp hnew with h | h
              · cases h
                omega
              · rcases List.mem_cons.mp h with h' | h'
                · cases h'
                · cases h'
      · rw [stepTok_accepted_no_trans layout st w seg hp hacc hcond] at hstep
        cases hstep
        refine ⟨h1, ?_, ?_⟩
        · rw [count_segtd_append]
          have hc : count_segtd [Align.tfTok st.tfs.length st.toks.length] = 0 := rfl
          rw [hc]
          dsimp only
          omega
        · intro s j hj
          rcases List.mem_append.mp hj with hold | hnew
          · exact h3 s j hold
          · rcases List.mem_cons.mp hnew with h | h
            · cases h
            · cases h
    · rw [stepTok_rejected layout st w seg hp hacc] at hstep
      cases hstep
      exact ⟨h1, h2, h3⟩

lemma runWalk_preserves_inv (layout : List PatchSeg) :
    ∀ (ws : List Word) (st st' : KState), runWalk layout st ws = .ok st' →
      st.docs.getLast? = some "" →
      count_segtd st.aligns + 1 = st.docs.length →
      (∀ s j, Align.segTd s j ∈ st.aligns → j + 1 < st.docs.length) →
      st'.docs.getLast? = some "" ∧
      count_segtd st'.aligns + 1 = st'.docs.length ∧
      ∀ s j, Align.segTd s j ∈ st'.aligns → j + 1 < st'.docs.length := by
  intro ws
  induction ws with
  | nil =>
    intro st st' h h1 h2 h3
    cases h
    exact ⟨h1, h2, h3⟩
  | cons w rest ih =>
    intro st st' h h1 h2 h3
    cases hs : stepTok layout st w with
    | error e => rw [runWalk, hs] at h; cases h
    | ok st1 =>
      rw [runWalk, hs] at h
      obtain ⟨g1, g2, g3⟩ := step_preserves_inv layout st st1 w hs h1 h2 h3
      exact ih st1 st' h g1 g2 g3

/-- C2 (amended): the loop of _kaldi_to_segmented_textdocument has no
post-loop finalization step, so in every successful run the most
recently opened TextDocument (the last one created) keeps its initial
empty text, the number of segment-TextDocument alignment links is one
less than the number of TextDocuments created, and no such link ever
points at the last TextDocument: a TextUnit is finalized only when a
later accepted token triggers a transition to the following segment,
never at end of transcript. -/
theorem C2_last_unit_never_finalized (anns : List SegAnn) (words : List Word) (st : KState)
    (h : kaldi_to_segmented_textdocument anns words = .ok st) :
    st.docs.getLast? = some "" ∧
    count_segtd st.aligns + 1 = st.docs.length ∧
    ∀ s j, Align.segTd s j ∈ st.aligns → j + 1 < st.docs.length := by
  unfold kaldi_to_segmented_textdocument at h
  cases ha : align_segmentations_to_patchwork anns with
  | none => rw [ha] at h; cases h
  | some layout =>
    rw [ha] at h
    exact runWalk_preserves_inv layout words initKState st h rfl rfl
      (fun s j hj => by cases hj)

/-- C2 counterexample: in the repository's own two-segment scenario
(segments [0s,10s] and [20s,29s], ten tokens, token '6' rejected), both
segments receive accepted tokens, yet the run emits exactly ONE
segment-TextDocument link (the claim requires one per consumed segment,
i.e. two) among its 10 alignments, and the second TextDocument's text
stays "" instead of receiving "7 8 9 0". -/
theorem C2_counterexample :
    (kaldi_to_segmented_textdocument testAnns testWords).toOption.map
      (fun st => (count_segtd st.aligns, st.aligns.length, st.docs)) =
      some (1, 10, ["1 2 3 4 5", ""]) ∧
    (kaldi_to_segmented_textdocument testAnns testWords).toOption.map
      (fun st => count_segtd st.aligns) ≠ some 2 :=
  ⟨by decide, by decide⟩

/-- Witness for C2: a concrete two-token run, one token per segment; the
final state has docs ["a", ""], one segment link, and that link points
at the first (not the last) TextDocument. -/
theorem C2_last_unit_witness :
    (["a", ""] : List String).getLast? = some "" ∧
    count_segtd [Align.tfTok 0 0, Align.segTd 0 0, Align.tfTok 1 1] + 1 = 2 ∧
    (0 : ℕ) + 1 < 2 := by
  have h := C2_last_unit_never_finalized testAnns c2Words
    ⟨1, "b", 0, ["a", ""],
     [⟨"a", 0, 1, 0⟩, ⟨"b", 2, 3, 1⟩],
     [(1000, 2000), (21000, 22000)],
     [Align.tfTok 0 0, Align.segTd 0 0, Align.tfTok 1 1]⟩ (by decide)
  exact ⟨h.1, h.2.1, h.2.2 0 0 (by decide)⟩

/-- C1 (amended): for every accepted token, the current TextUnit is
finalized (text stored into the last TextDocument, segment-TextDocument
link emitted, text buffer and position reset, current segment advanced
by one) exactly when the located segment index equals cur_segment + 1;
a token located two or more segments ahead triggers no finalization at
all: the TextDocument list, the current segment index and the
segment-link count stay as they were and the token is appended to the
still-open TextUnit.  Intervening segments never get a TextUnit of
their own in either case. -/
theorem C1_accepted_step (layout : List PatchSeg) (st : KState) (w : Word)
    (seg cseg : PatchSeg)
    (hp : pyGet layout (segNumOf layout w) = some seg)
    (hacc : startPw w < seg.nend ∧ endPw w < seg.nend)
    (hcur : layout.get? st.curSegment = some cseg) :
    ∃ st', stepTok layout st w = .ok st' ∧
      st'.curSegment = (if segNumOf layout w - 1 = (st.curSegment : ℤ)
        then st.curSegment + 1 else st.curSegment) ∧
      st'.docs = (if segNumOf layout w - 1 = (st.curSegment : ℤ)
        then (st.docs.set (st.docs.length - 1) st.rawText) ++ [""] else st.docs) ∧
      st'.aligns = st.aligns ++
        (if segNumOf layout w - 1 = (st.curSegment : ℤ)
          then [Align.segTd cseg.sid (st.docs.length - 1)] else []) ++
        [Align.tfTok st.tfs.length st.toks.length] ∧
      st'.position = (if segNumOf layout w - 1 = (st.curSegment : ℤ)
        then 0 else st.position + w.word.length + token_boundary.length) ∧
      st'.rawText = (if segNumOf layout w - 1 = (st.curSegment : ℤ)
        then w.word
        else if st.rawText.length = 0 then w.word
             else st.rawText ++ token_boundary ++ w.word) ∧
      st'.toks = st.toks ++ [⟨w.word, st.position, st.position + w.word.length,
        (if segNumOf layout w - 1 = (st.curSegment : ℤ)
          then st.docs.length else st.docs.length - 1)⟩] ∧
      st'.tfs = st.tfs ++ [(pyInt (startPw w + (seg.ostart - seg.nstart)),
                            pyInt (endPw w + (seg.ostart - seg.nstart)))] := by
  by_cases hcond : segNumOf layout w - 1 = (st.curSegment : ℤ)
  · refine ⟨_, stepTok_accepted_trans layout st w seg cseg hp hacc hcond hcur,
      ?_, ?_, ?_, ?_, ?_, ?_, ?_⟩ <;> simp [if_pos hcond]
  · refine ⟨_, stepTok_accepted_no_trans layout st w seg hp hacc hcond,
      ?_, ?_, ?_, ?_, ?_, ?_, ?_⟩ <;> simp [if_neg hcond]

/-- Witness for C1: a concrete accepted token located in the segment
right after the current one: the open TextUnit "ab" is finalized with
its link, and the token starts the new TextUnit (with its stale char
offsets 4..5 as the code computes them). -/
theorem C1_accepted_step_witness :
    ∃ st', stepTok testLayout c1WitState tok7 = .ok st' ∧
      st'.curSegment = 1 ∧
      st'.docs = ["ab", ""] ∧
      st'.aligns = [Align.segTd 0 0, Align.tfTok 0 0] ∧
      st'.position = 0 ∧
      st'.rawText = "7" ∧
      st'.toks = [⟨"7", 4, 5, 1⟩] ∧
      st'.tfs = [(21000, 22000)] := by
  obtain ⟨st', h0, hc, hd, ha, hpos, hr, ht, hf⟩ :=
    C1_accepted_step testLayout c1WitState tok7
      ⟨1, 20000, 29000, 11000, 20000⟩ ⟨0, 0, 10000, 0, 10000⟩
      (by decide) ⟨by decide, by decide⟩ (by decide)
  refine ⟨st', h0, ?_, ?_, ?_, ?_, ?_, ?_, ?_⟩
  · rw [hc]; decide
  · rw [hd]; decide
  · rw [ha]; decide
  · rw [hpos]; decide
  · rw [hr]; decide
  · rw [ht]; decide
  · rw [hf]; decide

/-- C1 counterexample: three segments, the middle one receiving no
token.  The second token is located two segments ahead of cur_segment,
yet after the run cur_segment is still 0 (the claim requires it to be
set to 2), only the single initial TextDocument exists (no finalization
happened), no segment-TextDocument link was emitted, and both words were
merged into the first TextUnit's buffer. -/
theorem C1_counterexample :
    (kaldi_to_segmented_textdocument c1Anns c1Words).toOption.map
      (fun st => (st.curSegment, st.docs.length, count_segtd st.aligns, st.rawText)) =
      some (0, 1, 0, "a b") ∧
    (kaldi_to_segmented_textdocument c1Anns c1Words).toOption.map
      (fun st => st.curSegment) ≠ some 2 :=
  ⟨by decide, by decide⟩

/-- C3 (code evaluation): processing the rejected test token '6' from
the state reached after the five accepted tokens of the first segment
leaves raw_text, cur_segment and every emitted annotation unchanged but
advances the character-offset position from 10 to 12: the offset counter
is updated at app.py:142-145 before the rejection check at 147-154, so
rejected tokens do advance part of the running state. -/
theorem C3_rejected_token_advances_position :
    stepTok testLayout c3State tok6 = .ok ⟨0, "1 2 3 4 5", 12, [""], [], [], []⟩ ∧
    c3State.position ≠ 12 :=
  ⟨by decide, by decide⟩

/-- C4 (code evaluation): in the two-segment test scenario the token '7'
is the first accepted token of the newly started second TextUnit, yet
its emitted annotation carries char_start = 12 and char_end = 13 (the
offsets computed before the transition reset, still counting the first
TextUnit's tokens and the rejected token '6') instead of the claimed
char_start = 0. -/
theorem C4_stale_offset_eval :
    (kaldi_to_segmented_textdocument testAnns testWords).toOption.map
      (fun st => st.toks.getD 5 ⟨"", 0, 0, 0⟩) = some ⟨"7", 12, 13, 1⟩ ∧
    (⟨"7", 12, 13, 1⟩ : TokenAnn).charStart ≠ 0 :=
  ⟨by decide, by decide⟩

/-- C7: a token whose patchwork start time lies strictly past the
located segment's patchwork end (inside the following silence gap, or
past the end of the layout) is dropped silently: the step returns
normally (no exception), and the emitted TextDocuments, tokens,
TimeFrames and alignments are all exactly those of the incoming state;
the walk then continues with the remaining tokens. -/
theorem C7_gap_token_dropped (layout : List PatchSeg) (st : KState) (w : Word)
    (seg : PatchSeg)
    (hp : pyGet layout (segNumOf layout w) = some seg)
    (hgap : seg.nend < startPw w) :
    stepTok layout st w =
      .ok { st with position := st.position + w.word.length + token_boundary.length } :=
  stepTok_rejected layout st w seg hp (fun h => absurd hgap (lt_asymm h.1))

/-- Witness for C7: a token at patchwork time 10.5s falls strictly
between the first test segment's patchwork end (10s) and the second's
patchwork start (11s); the step succeeds and emits nothing. -/
theorem C7_gap_token_dropped_witness :
    stepTok testLayout initKState gapTok = .ok ⟨0, "", 2, [""], [], [], []⟩ :=
  C7_gap_token_dropped testLayout initKState gapTok ⟨0, 0, 10000, 0, 10000⟩
    (by decide) (by decide)

/-- C5 counterexample: on the empty speech-segment list the function
does not return an empty layout: unpacking `zip(*sorted_segments)` into
three names raises ValueError because zip of nothing yields no tuples
(modelled: the result is none, not some []). -/
theorem C5_counterexample :
    align_segmentations_to_patchwork [] = none ∧
    align_segmentations_to_patchwork [] ≠ some [] :=
  ⟨rfl, by decide⟩

/-- C5 (amended): _align_segmentations_to_patchwork raises no error on
any NON-EMPTY list of speech segments; the empty list is the one failing
input (it raises ValueError instead of yielding an empty layout). -/
theorem C5_nonempty_no_error (anns : List SegAnn) (h : anns ≠ []) :
    (align_segmentations_to_patchwork anns).isSome = true :=
  align_isSome_of_ne_nil anns h

/-- Witness for C5: a concrete one-segment input succeeds. -/
theorem C5_nonempty_no_error_witness :
    (align_segmentations_to_patchwork [⟨0, 0, 10000⟩]).isSome = true :=
  C5_nonempty_no_error [⟨0, 0, 10000⟩] (by decide)

/-- C6: every layout produced by _align_segmentations_to_patchwork
satisfies patchwork_start[0] = 0, duration preservation
(patchwork_end[i] - patchwork_start[i] = original_end[i] -
original_start[i] for every i), and the gap invariant
(patchwork_start[i+1] - patchwork_end[i] = silence_gap expressed in the
internal time unit). -/
theorem C6_layout_invariants (anns : List SegAnn) (layout : List PatchSeg)
    (i : ℕ) (p : PatchSeg)
    (hl : align_segmentations_to_patchwork anns = some layout)
    (hp : layout.get? i = some p) :
    (∃ p0, layout.get? 0 = some p0 ∧ p0.nstart = 0) ∧
    p.nend - p.nstart = p.oend - p.ostart ∧
    (∀ q, layout.get? (i + 1) = some q →
      q.nstart - p.nend = silence_gap * timeunit_conv) := by
  unfold align_segmentations_to_patchwork at hl
  cases hs : sort_segs anns with
  | nil => rw [hs] at hl; cases hl
  | cons s rest =>
    rw [hs] at hl
    cases hl
    exact ⟨⟨_, rfl, rfl⟩, layout_from_duration _ _ i p hp,
      fun q hq => layout_from_gap _ _ i p q hp hq⟩

/-- Witness for C6 on the test scenario layout: the first row starts at
0, preserves its duration, and the second row starts exactly one silence
gap (1000 ms) after the first row ends. -/
theorem C6_layout_invariants_witness :
    (∃ p0, testLayout.get? 0 = some p0 ∧ p0.nstart = 0) ∧
    (10000 : ℚ) - 0 = 10000 - 0 ∧
    (11000 : ℚ) - 10000 = silence_gap * timeunit_conv := by
  have h := C6_layout_invariants testAnns testLayout 0 ⟨0, 0, 10000, 0, 10000⟩
    (by decide) (by decide)
  exact ⟨h.1, h.2.1, h.2.2 ⟨1, 20000, 29000, 11000, 20000⟩ (by decide)⟩

lemma single_loop_toks_length :
    ∀ (ws : List Word) (off idx : ℕ), (single_loop ws off idx).1.length = ws.length := by
  intro ws
  induction ws with
  | nil => intro off idx; rfl
  | cons w rest ih => intro off idx; simp [single_loop, ih]

lemma single_loop_tfs :
    ∀ (ws : List Word) (off idx : ℕ),
      (single_loop ws off idx).2.1 = ws.map (fun w =>
        (pyInt (w.time * timeunit_conv),
         pyInt (w.duration * timeunit_conv) + pyInt (w.time * timeunit_conv))) := by
  intro ws
  induction ws with
  | nil => intro off idx; rfl
  | cons w rest ih => intro off idx; simp [single_loop, ih]

lemma single_loop_aligns :
    ∀ (ws : List Word) (off idx : ℕ),
      (single_loop ws off idx).2.2 =
        (List.range ws.length).map (fun j => Align.tfTok (idx + j) (idx + j)) := by
  intro ws
  induction ws with
  | nil => intro off idx; rfl
  | cons w rest ih =>
    intro off idx
    simp only [single_loop, List.length_cons]
    rw [ih]
    rw [List.range_succ_eq_map, List.map_cons, List.map_map]
    refine congrArg₂ _ (by simp) ?_
    refine List.map_congr_left ?_
    intro j hj
    simp only [Function.comp_apply]
    congr 1 <;> omega

/-- C9 (amended): the fallback path produces one TextDocument whose text
is all words joined in order by the token boundary, one token annotation
per word, one TimeFrame per word whose start is the truncated converted
time and whose end is the truncated converted duration ADDED TO that
start (int(duration*conv) + int(time*conv), which can differ from
converting time+duration), with no segment translation, plus exactly
n+1 alignment links: the whole-audio link first, then one
token-TimeFrame link per word. -/
theorem C9_single_path (words : List Word) :
    (kaldi_to_single_textdocument words).text =
      String.intercalate token_boundary (words.map (fun w => w.word)) ∧
    (kaldi_to_single_textdocument words).toks.length = words.length ∧
    (kaldi_to_single_textdocument words).tfs = words.map (fun w =>
      (pyInt (w.time * timeunit_conv),
       pyInt (w.duration * timeunit_conv) + pyInt (w.time * timeunit_conv))) ∧
    (kaldi_to_single_textdocument words).aligns =
      Align.audioTd 0 :: (List.range words.length).map (fun j => Align.tfTok j j) := by
  refine ⟨rfl, single_loop_toks_length words 0 0, single_loop_tfs words 0 0, ?_⟩
  show Align.audioTd 0 :: (single_loop words 0 0).2.2 = _
  rw [single_loop_aligns words 0 0]
  simp

/-- C9 counterexample: for a token with time = duration = 1/512 s the
emitted TimeFrame is (1, 2): its end is int(duration*conv) +
int(time*conv) = 2, whereas time+duration converted to milliseconds and
truncated is 3, so the claimed end value does not match the code (the
values are exact both here and in IEEE doubles). -/
theorem C9_counterexample :
    (kaldi_to_single_textdocument [c9Word]).tfs = [(1, 2)] ∧
    pyInt ((c9Word.time + c9Word.duration) * timeunit_conv) = 3 ∧
    (2 : ℤ) ≠ 3 :=
  ⟨by decide, by decide, by decide⟩

lemma patchwork_error_of_multi :
    ∀ (docs : List AudioDoc), (∃ d ∈ docs, 1 < d.tfViews.length) →
      patchwork_audiofiles docs = .error .valueError := by
  intro docs
  induction docs with
  | nil =>
    intro h
    obtain ⟨d, hd, _⟩ := h
    cases hd
  | cons d ds ih =>
    intro h
    obtain ⟨d', hd', hlen⟩ := h
    cases hv : d.tfViews with
    | nil =>
      rcases List.mem_cons.mp hd' with heq | hmem
      · subst heq; rw [hv] at hlen; simp at hlen
      · have hrec := ih ⟨d', hmem, hlen⟩
        simp [patchwork_audiofiles, hv, hrec]
    | cons v vs =>
      cases vs with
      | nil =>
        rcases List.mem_cons.mp hd' with heq | hmem
        · subst heq; rw [hv] at hlen; simp at hlen
        · have hrec := ih ⟨d', hmem, hlen⟩
          simp [patchwork_audiofiles, hv, hrec]
      | cons v2 rest => simp [patchwork_audiofiles, hv]

lemma patchwork_ok_char :
    ∀ (docs : List AudioDoc), (∀ d ∈ docs, d.tfViews.length ≤ 1) →
      patchwork_audiofiles docs = .ok
        (docs.map (fun d =>
          (d.did, if d.tfViews.isEmpty then d.location else patchwork_name d.did)),
         docs.filterMap (fun d => d.tfViews.head?.map (fun v => (d.did, v)))) := by
  intro docs
  induction docs with
  | nil => intro _; rfl
  | cons d ds ih =>
    intro h1
    have hrec := ih (fun d' hd' => h1 d' (List.mem_cons_of_mem d hd'))
    cases hv : d.tfViews with
    | nil => simp [patchwork_audiofiles, hv, hrec, List.filterMap_cons]
    | cons v vs =>
      cases vs with
      | nil => simp [patchwork_audiofiles, hv, hrec, List.filterMap_cons]
      | cons v2 rest =>
        have := h1 d (List.mem_cons_self d ds)
        rw [hv] at this
        simp at this

/-- C8: _patchwork_audiofiles raises ValueError exactly when some audio
document in the batch has more than one existing view containing
TimeFrame annotations; in particular, when every document has at most
one such view, that error is not raised, and when some document has two
or more, the error propagates to the caller (the whole call evaluates
to the error, nothing is recovered). -/
theorem C8_multiple_views_valueError (docs : List AudioDoc) :
    patchwork_audiofiles docs = .error .valueError ↔
      ∃ d ∈ docs, 1 < d.tfViews.length := by
  constructor
  · intro h
    by_contra hc
    push_neg at hc
    rw [patchwork_ok_char docs hc] at h
    cases h
  · exact patchwork_error_of_multi docs

lemma tfSrc_empty_iff :
    ∀ (docs : List AudioDoc) (files : List (Nat × String)) (tfSrc : List (Nat × SegView)),
      patchwork_audiofiles docs = .ok (files, tfSrc) →
      (tfSrc = [] ↔ ∀ d ∈ docs, d.tfViews = []) := by
  intro docs
  induction docs with
  | nil =>
    intro files tfSrc h
    cases h
    simp
  | cons d ds ih =>
    intro files tfSrc h
    cases hv : d.tfViews with
    | nil =>
      simp only [patchwork_audiofiles, hv] at h
      cases hr : patchwork_audiofiles ds with
      | error e => rw [hr] at h; cases h
      | ok pr =>
        obtain ⟨fs, ts⟩ := pr
        rw [hr] at h
        simp only [Except.ok.injEq, Prod.mk.injEq] at h
        obtain ⟨hf, ht⟩ := h
        subst ht
        have hts := ih fs ts hr
        constructor
        · intro h0 d' hd'
          rcases List.mem_cons.mp hd' with heq | hmem
          · subst heq; exact hv
          · exact (hts.mp h0) d' hmem
        · intro hall
          exact hts.mpr (fun d' hd' => hall d' (List.mem_cons_of_mem d hd'))
    | cons v vs =>
      cases vs with
      | nil =>
        simp only [patchwork_audiofiles, hv] at h
        cases hr : patchwork_audiofiles ds with
        | error e => rw [hr] at h; cases h
        | ok pr =>
          obtain ⟨fs, ts⟩ := pr
          rw [hr] at h
          simp only [Except.ok.injEq, Prod.mk.injEq] at h
          obtain ⟨hf, ht⟩ := h
          subst ht
          constructor
          · intro h0; simp at h0
          · intro hall
            have := hall d (List.mem_cons_self d ds)
            rw [hv] at this
            simp at this
      | cons v2 rest =>
        simp only [patchwork_audiofiles, hv] at h
        cases h

lemma kaldi_to_mmif_keyError (trans : Nat → List Word) (tfSrc : List (Nat × SegView)) :
    ∀ (ids : List Nat),
      tfSrc ≠ [] →
      (∀ i ∈ ids, ∀ v, lookup_tf_view tfSrc i = some v → segview_to_anns v ≠ []) →
      (∃ i ∈ ids, lookup_tf_view tfSrc i = none) →
      kaldi_to_mmif trans tfSrc ids = .error .keyError := by
  intro ids
  induction ids with
  | nil =>
    intro _ _ hmiss
    obtain ⟨i, hi, _⟩ := hmiss
    cases hi
  | cons i is ih =>
    intro hne hok hmiss
    have hempty : tfSrc.isEmpty = false := by
      cases tfSrc with
      | nil => exact absurd rfl hne
      | cons p ps => rfl
    cases hl : lookup_tf_view tfSrc i with
    | none => simp [kaldi_to_mmif, hempty, hl]
    | some v =>
      have hanns := hok i (List.mem_cons_self i is) v hl
      obtain ⟨st, hst⟩ := kaldi_seg_ok (segview_to_anns v) (trans i) hanns
      have hrec : kaldi_to_mmif trans tfSrc is = .error .keyError := by
        apply ih hne (fun i' hi' => hok i' (List.mem_cons_of_mem i hi'))
        obtain ⟨i0, hi0, hnone⟩ := hmiss
        rcases List.mem_cons.mp hi0 with heq | hmem
        · subst heq; rw [hl] at hnone; cases hnone
        · exact ⟨i0, hmem, hnone⟩
      simp [kaldi_to_mmif, hempty, hl, hst, hrec]

/-- C10: the fallback decision is per-batch.  Under use_speech_segmentation,
for any batch (with distinct document ids, every document carrying at
most one TimeFrame view, and every carried view holding at least one
speech frame) in which some document has a segmentation view while some
other has none, the whole pipeline evaluates to a KeyError raised while
formatting the transcript of a document whose id is absent from the
tf_src_view map — no single-TextDocument view is produced for it.
Moreover, for any batch at all, the map handed to _kaldi_to_mmif is
empty (which is exactly when the fallback branch is taken for every
transcript) if and only if no document in the batch contributed a
TimeFrame view. -/
theorem C10_batchwise_fallback (docs : List AudioDoc) (trans : Nat → List Word)
    (h1 : ∀ d ∈ docs, d.tfViews.length ≤ 1)
    (h2 : ∀ d ∈ docs, ∀ v ∈ d.tfViews, segview_to_anns v ≠ [])
    (hnd : (docs.map (fun d => d.did)).Nodup)
    (h3 : ∃ d ∈ docs, d.tfViews ≠ [])
    (h4 : ∃ d ∈ docs, d.tfViews = []) :
    annotate_pipeline true docs trans = .error .keyError ∧
    ∀ (docs2 : List AudioDoc) (files : List (Nat × String)) (tfSrc : List (Nat × SegView)),
      patchwork_audiofiles docs2 = .ok (files, tfSrc) →
      (tfSrc = [] ↔ ∀ d ∈ docs2, d.tfViews = []) := by
  refine ⟨?_, fun docs2 files tfSrc h => tfSrc_empty_iff docs2 files tfSrc h⟩
  have hpipe : annotate_pipeline true docs trans =
      kaldi_to_mmif trans
        (docs.filterMap (fun d => d.tfViews.head?.map (fun v => (d.did, v))))
        ((docs.map (fun d =>
          (d.did, if d.tfViews.isEmpty then d.location else patchwork_name d.did))).map
            (fun p => p.1)) := by
    simp only [annotate_pipeline, if_true]
    rw [patchwork_ok_char docs h1]
  rw [hpipe]
  have hids : (docs.map (fun d =>
      (d.did, if d.tfViews.isEmpty then d.location else patchwork_name d.did))).map
        (fun p => p.1) = docs.map (fun d => d.did) := by
    rw [List.map_map]
    rfl
  rw [hids]
  apply kaldi_to_mmif_keyError
  · obtain ⟨dA, hdA, hAne⟩ := h3
    intro hemp
    cases hv : dA.tfViews with
    | nil => exact hAne hv
    | cons v vs =>
      have hmem : (dA.did, v) ∈
          docs.filterMap (fun d => d.tfViews.head?.map (fun v => (d.did, v))) :=
        List.mem_filterMap.mpr ⟨dA, hdA, by rw [hv]; rfl⟩
      rw [hemp] at hmem
      cases hmem
  · intro i hi v hl
    unfold lookup_tf_view at hl
    cases hf : (docs.filterMap
        (fun d => d.tfViews.head?.map (fun v => (d.did, v)))).find?
          (fun p => p.1 == i) with
    | none => rw [hf] at hl; cases hl
    | some p =>
      rw [hf] at hl
      cases hl
      obtain ⟨d', hd', hfd⟩ := List.mem_filterMap.mp (List.mem_of_find?_eq_some hf)
      cases hvv : d'.tfViews with
      | nil => rw [hvv] at hfd; cases hfd
      | cons v0 vs0 =>
        rw [hvv] at hfd
        have hp : p = (d'.did, v0) := by
          simp only [List.head?] at hfd
          cases hfd
          rfl
        rw [hp]
        exact h2 d' hd' v0 (by rw [hvv]; exact List.mem_cons_self v0 vs0)
  · obtain ⟨dB, hdB, hBnil⟩ := h4
    refine ⟨dB.did, List.mem_map.mpr ⟨dB, hdB, rfl⟩, ?_⟩
    unfold lookup_tf_view
    have hfind : (docs.filterMap
        (fun d => d.tfViews.head?.map (fun v => (d.did, v)))).find?
          (fun p => p.1 == dB.did) = none := by
      rw [List.find?_eq_none]
      intro p hp
      obtain ⟨d', hd', hfd⟩ := List.mem_filterMap.mp hp
      cases hvv : d'.tfViews with
      | nil => rw [hvv] at hfd; cases hfd
      | cons v0 vs0 =>
        rw [hvv] at hfd
        have hp1 : p.1 = d'.did := by
          simp only [List.head?] at hfd
          cases hfd
          rfl
        rw [hp1]
        simp only [beq_iff_eq]
        intro hdid
        have hdd : d' = dB :=
          List.inj_on_of_nodup_map hnd hd' hdB hdid
        rw [hdd, hBnil] at hvv
        cases hvv
    rw [hfind]

/-- Witness for C10: the concrete two-document batch (document 0 with one
speech-segmented view, document 1 with none) ends in KeyError, and its
tf_src_view map is nonempty exactly because a document contributed a
view. -/
theorem C10_batchwise_fallback_witness :
    annotate_pipeline true c10Docs c10Trans = .error .keyError :=
  (C10_batchwise_fallback c10Docs c10Trans (by decide) (by decide) (by decide)
    (by decide) (by decide)).1

end PuaKaldi
